import Mathlib

/-!
# Verification of the WebSocket protocol-and-bridge core of `src/server.js`

This file is a shallow embedding, in Lean 4, of the protocol-and-bridge core
of the terminal-emulator server:

* the frame codec `sendWebSocket` / `parseWebSocketFrames`,
* the upgrade handshake handler,
* the session registry (`removeSession`) and the terminal bridge
  (`attachTerminal`, the stderr credential heuristic).

Byte buffers (`Buffer`) are modelled as `List Nat` whose elements are byte
values; JavaScript strings that only flow through the codec are modelled by
their UTF-8 byte lists, and `Buffer.prototype.toString` on a decoded payload
is modelled as the identity on the byte list.  Stateful handlers are
modelled as pure functions from inputs to a new state together with an
ordered trace of the externally visible actions they perform.
-/

namespace TerminalEmulator

/-! ## Frame codec: encoding (`sendWebSocket`, src/server.js lines 244-262) -/

/-- The two bytes written by `header.writeUInt16BE(n, _)`, big endian. -/
def uint16BEBytes (n : Nat) : List Nat :=
  [n / 256 % 256, n % 256]

/-- The four bytes written by `header.writeUInt32BE(n, _)`, big endian.
`n >>> 0` truncation to 32 bits is subsumed by the per-byte `% 256`. -/
def uint32BEBytes (n : Nat) : List Nat :=
  [n / 16777216 % 256, n / 65536 % 256, n / 256 % 256, n % 256]

/-- The frame header built by `sendWebSocket` for a payload of length `len`:
2 bytes below 126, 4 bytes below 65536, 10 bytes otherwise.  Byte 0 is
always `0x81` (FIN bit plus text opcode). -/
def wsHeader (len : Nat) : List Nat :=
  if len < 126 then
    [129, len]
  else if len < 65536 then
    [129, 126] ++ uint16BEBytes len
  else
    [129, 127] ++ uint32BEBytes (len / 4294967296) ++ uint32BEBytes len

/-- `sendWebSocket(socket, data)`: the bytes written to the socket, namely
`Buffer.concat([header, payload])`. -/
def sendWebSocket (payload : List Nat) : List Nat :=
  wsHeader payload.length ++ payload

/-! ## Frame codec: decoding (`parseWebSocketFrames`, src/server.js 264-302) -/

/-- `buffer.readUInt16BE(o)` on the byte-list model. -/
def readUInt16BE (b : List Nat) (o : Nat) : Nat :=
  b.getD o 0 * 256 + b.getD (o + 1) 0

/-- `buffer.readUInt32BE(o)` on the byte-list model. -/
def readUInt32BE (b : List Nat) (o : Nat) : Nat :=
  b.getD o 0 * 16777216 + b.getD (o + 1) 0 * 65536 +
    b.getD (o + 2) 0 * 256 + b.getD (o + 3) 0

/-- `buffer.slice(start, stop)`: the elements at indices
`start, ..., stop - 1`, truncated at the end of the buffer. -/
def bufferSlice (b : List Nat) (start stop : Nat) : List Nat :=
  (b.drop start).take (stop - start)

/-- `payload.map((byte, idx) => byte ^ mask[idx % 4])` with the running
index made explicit: `unmaskPayload mask i p` XORs byte `p[j]` with
`mask[(i + j) % 4]`. -/
def unmaskPayload (mask : List Nat) : Nat → List Nat → List Nat
  | _, [] => []
  | i, b :: rest => (b ^^^ mask.getD (i % 4) 0) :: unmaskPayload mask (i + 1) rest

/-- Resolution of the length class in `parseWebSocketFrames`:
`length0 = byte2 & 0x7f` is either the inline length (header size 2), a
16-bit extension (header size 4), or a 64-bit extension (header size 10);
`none` when the extension bytes are truncated (`break`). -/
def frameLength (buffer : List Nat) (offset length0 : Nat) : Option (Nat × Nat) :=
  if length0 = 126 then
    if buffer.length < offset + 4 then none
    else some (readUInt16BE buffer (offset + 2), 4)
  else if length0 = 127 then
    if buffer.length < offset + 10 then none
    else some (readUInt32BE buffer (offset + 2) * 4294967296 +
                 readUInt32BE buffer (offset + 6), 10)
  else some (length0, 2)

/-- The rest of the loop body once length and pre-mask header size are
known: add 4 to the header size for the mask key when the mask flag is
set, check the payload is complete (`break` otherwise), slice it, unmask
it when masked, and surface it only for the text opcode. -/
def frameBody (buffer : List Nat) (offset opcode : Nat) (masked : Bool)
    (length hs0 : Nat) : Option (Option (List Nat) × Nat) :=
  let headerSize := if masked then hs0 + 4 else hs0
  if buffer.length < offset + headerSize + length then none
  else
    let raw := bufferSlice buffer (offset + headerSize) (offset + headerSize + length)
    let payload :=
      if masked then
        unmaskPayload (bufferSlice buffer (offset + hs0) (offset + hs0 + 4)) 0 raw
      else raw
    some (if opcode = 1 then some payload else none, offset + headerSize + length)

/-- One iteration of the `while` loop of `parseWebSocketFrames`: at scan
position `offset`, either the loop stops (`none`: fewer than two header
bytes remain, a length extension is truncated, or the payload is
truncated), or one frame is consumed (`some (msg, offset')` with `msg` the
decoded payload when the opcode is text (`0x1`) and `none` otherwise, and
`offset'` the scan position after the frame). -/
def parseFrameStep (buffer : List Nat) (offset : Nat) :
    Option (Option (List Nat) × Nat) :=
  if buffer.length < offset + 2 then none
  else
    match frameLength buffer offset (buffer.getD (offset + 1) 0 &&& 127) with
    | none => none
    | some (length, hs0) =>
      frameBody buffer offset (buffer.getD offset 0 &&& 15)
        (buffer.getD (offset + 1) 0 &&& 128 == 128) length hs0

/-- The `while` loop of `parseWebSocketFrames`, with an explicit fuel bound
on the number of iterations.  Each iteration consumes at least two bytes,
so any fuel of at least `buffer.length + 1` is enough (proved below). -/
def parseLoop (buffer : List Nat) : Nat → Nat → List (List Nat)
  | 0, _ => []
  | fuel + 1, offset =>
    match parseFrameStep buffer offset with
    | none => []
    | some (msgOpt, offset') =>
      (match msgOpt with
       | some m => [m]
       | none => []) ++ parseLoop buffer fuel offset'

/-- `parseWebSocketFrames(buffer)`: the list of decoded text messages,
each modelled by its payload byte list. -/
def parseWebSocketFrames (buffer : List Nat) : List (List Nat) :=
  parseLoop buffer (buffer.length + 1) 0

/-- The socket `data` handler installed by `attachTerminal`
(src/server.js 332-337): each arriving chunk is decoded independently —
`parseWebSocketFrames` holds no state between calls — and every decoded
message is written to the process stdin in order. -/
def terminalStdinWrites (chunks : List (List Nat)) : List (List Nat) :=
  (chunks.map parseWebSocketFrames).flatten

/-! ## Handshake (`websocketAcceptKey` and the `upgrade` handler,
src/server.js 240-242 and 346-364).  The Node `crypto` library is external
to the repository; the composite primitive
`crypto.createHash('sha1').update(s).digest('base64')` is therefore passed
in as an abstract function `sha1Base64`. -/

/-- The fixed magic GUID appended to the client key. -/
def magicGUID : String := "258EAFA5-E914-47DA-95CA-C5AB0DC85B11"

/-- `websocketAcceptKey(key)`: base64 of the SHA-1 digest of the client key
concatenated with the magic GUID, with the SHA-1/base64 primitive abstract. -/
def websocketAcceptKey (sha1Base64 : String → String) (key : String) : String :=
  sha1Base64 (key ++ magicGUID)

/-- The handshake response text: the four lines with `'\r\n'` appended,
joined by `'\r\n'` (`headers.concat('\r\n').join('\r\n')`). -/
def upgradeResponseText (acceptKey : String) : String :=
  String.intercalate "\r\n"
    ["HTTP/1.1 101 Switching Protocols",
     "Upgrade: websocket",
     "Connection: Upgrade",
     "Sec-WebSocket-Accept: " ++ acceptKey,
     "\r\n"]

/-- An inbound upgrade request as the handler reads it: the parsed pathname
and the `sec-websocket-key` header (`none` when absent). -/
structure UpgradeRequest where
  pathname : String
  secWebSocketKey : Option String
  deriving DecidableEq

/-- Externally visible actions the upgrade handler performs on the raw
socket, in order: `destroy`, write of text, or installation of the frame
`data` handler (the start of frame traffic). -/
inductive SocketAction where
  | destroy : SocketAction
  | write (text : String) : SocketAction
  | installDataHandler : SocketAction
  deriving DecidableEq

/-- The `server.on('upgrade')` handler as a trace of socket actions.  The
`!key` truthiness test in JavaScript is false for both a missing header and
an empty-string header value. -/
def onUpgrade (sha1Base64 : String → String) (req : UpgradeRequest) :
    List SocketAction :=
  if req.pathname ≠ "/terminal" then [SocketAction.destroy]
  else
    match req.secWebSocketKey with
    | none => [SocketAction.destroy]
    | some key =>
      if key = "" then [SocketAction.destroy]
      else
        [SocketAction.write (upgradeResponseText (websocketAcceptKey sha1Base64 key)),
         SocketAction.installDataHandler]

/-! ## Session registry (src/server.js 8-32) -/

/-- The `terminal` field attached by `attachTerminal`:
`{ process: proc, socket }`.  The process handle is modelled by an opaque
numeric pid; `process` is optional because `removeSession` guards on
`session.terminal.process` being truthy. -/
structure Terminal where
  process : Option Nat
  deriving DecidableEq

/-- A stored session as built by `createSession` (src/server.js 10-23). -/
structure Session where
  sid : String
  host : String
  port : Nat
  username : String
  password : String
  identityFile : String
  createdAt : Nat
  terminal : Option Terminal
  deriving DecidableEq

/-- The `sessions` map, modelled as an association list keyed by id. -/
abbrev Registry := List (String × Session)

/-- `sessions.get(id)`. -/
def registryGet (r : Registry) (id : String) : Option Session :=
  (r.find? (fun e => e.1 == id)).map (fun e => e.2)

/-- `sessions.delete(id)`. -/
def registryDelete (r : Registry) (id : String) : Registry :=
  r.filter (fun e => e.1 != id)

/-- Externally visible actions of `removeSession`, in order: a signal sent
to a process, then the discarding of the map entry. -/
inductive RegEvent where
  | kill (pid : Nat) (signal : String) : RegEvent
  | discard (id : String) : RegEvent
  deriving DecidableEq

/-- `removeSession(id)` (src/server.js 25-32): returns the new registry and
the ordered trace of its actions.  An unknown id produces no action; a
session whose terminal holds a process is killed with `'SIGKILL'` before
the entry is deleted. -/
def removeSession (r : Registry) (id : String) : Registry × List RegEvent :=
  match registryGet r id with
  | none => (r, [])
  | some s =>
    let kills : List RegEvent :=
      match s.terminal with
      | some t =>
        match t.process with
        | some pid => [RegEvent.kill pid "SIGKILL"]
        | none => []
      | none => []
    (registryDelete r id, kills ++ [RegEvent.discard id])

/-! ## Process bridge (`attachTerminal`, src/server.js 304-342) -/

/-- `buildSshCommand(session)` (src/server.js 88-99). -/
def buildSshCommand (s : Session) : List String :=
  ["-p", toString s.port,
   "-o", "StrictHostKeyChecking=no",
   "-o", "UserKnownHostsFile=/dev/null"] ++
  (if s.identityFile ≠ "" then ["-i", s.identityFile] else []) ++
  [s.username ++ "@" ++ s.host]

/-- The UTF-8 bytes of the string `'Invalid session'`. -/
def invalidSessionBytes : List Nat :=
  [73, 110, 118, 97, 108, 105, 100, 32, 115, 101, 115, 115, 105, 111, 110]

/-- Externally visible actions of `attachTerminal` before any stream
events: a frame written to the socket, the socket being ended, or a
process being spawned. -/
inductive BridgeEvent where
  | socketWrite (bytes : List Nat) : BridgeEvent
  | socketEnd : BridgeEvent
  | spawn (cmd : String) (args : List String) : BridgeEvent
  deriving DecidableEq

/-- Record a freshly attached terminal on the session with the given id. -/
def setTerminal (r : Registry) (id : String) (t : Terminal) : Registry :=
  r.map (fun e => if e.1 = id then (e.1, { e.2 with terminal := some t }) else e)

/-- `attachTerminal(socket, sessionId)` (src/server.js 304-315), up to the
installation of the stream handlers: an unknown session id writes one
`'Invalid session'` frame and ends the socket, leaving the registry
untouched; a known id spawns `ssh` with `'-tt'` prepended to
`buildSshCommand` and records the bridge on the session.  `pid` stands for
the handle of the process that `spawn` would return. -/
def attachTerminal (r : Registry) (pid : Nat) (sessionId : String) :
    Registry × List BridgeEvent :=
  match registryGet r sessionId with
  | none =>
    (r, [BridgeEvent.socketWrite (sendWebSocket invalidSessionBytes),
         BridgeEvent.socketEnd])
  | some s =>
    (setTerminal r sessionId { process := some pid },
     [BridgeEvent.spawn "ssh" ("-tt" :: buildSshCommand s)])

/-! ## The stderr credential heuristic (src/server.js 318-325) -/

/-- `String.prototype.toLowerCase` restricted to ASCII, per character. -/
def jsToLowerChar (c : Char) : Char :=
  if 65 ≤ c.toNat ∧ c.toNat ≤ 90 then Char.ofNat (c.toNat + 32) else c

/-- `text.toLowerCase()` on the ASCII fragment the heuristic inspects. -/
def jsToLower (s : String) : String :=
  String.mk (s.toList.map jsToLowerChar)

/-- `text.toLowerCase().includes('password')`. -/
def containsPassword (s : String) : Bool :=
  decide ("password".toList <:+: (jsToLower s).toList)

/-- What the stderr `data` handler does with one chunk: the ordered list of
strings written to the process stdin and the ordered list of frame
payloads forwarded to the socket. -/
structure StderrEffect where
  stdinWrites : List String
  socketWrites : List String
  deriving DecidableEq

/-- The `proc.stderr.on('data')` handler of `attachTerminal`: when the
chunk mentions `password` (case-insensitively) and the stored credential is
non-empty, write credential plus newline to stdin and forward nothing;
otherwise forward the chunk to the socket unchanged. -/
def handleStderrChunk (password : String) (chunk : String) : StderrEffect :=
  if password ≠ "" ∧ containsPassword chunk = true then
    { stdinWrites := [password ++ "\n"], socketWrites := [] }
  else
    { stdinWrites := [], socketWrites := [chunk] }

/-! ## A well-formed masked client frame (spec §8, "Masking involution").
The server never builds masked frames, so this construction is the
spec-side "masked copy": the text-frame header with the mask bit set,
the 4-byte mask key, then the payload masked by the same XOR rule that
`parseWebSocketFrames` uses to unmask. -/

/-- The header of a masked text frame for a payload of length `len`:
as `wsHeader`, with bit `0x80` set in the second byte. -/
def maskedHeader (len : Nat) : List Nat :=
  if len < 126 then
    [129, 128 + len]
  else if len < 65536 then
    [129, 254] ++ uint16BEBytes len
  else
    [129, 255] ++ uint32BEBytes (len / 4294967296) ++ uint32BEBytes len

/-- A well-formed masked text frame carrying `payload` under `mask`. -/
def maskedTextFrame (mask payload : List Nat) : List Nat :=
  maskedHeader payload.length ++ mask ++ unmaskPayload mask 0 payload

/-- A concrete session with an attached bridge whose process handle is 7,
used to instantiate the registry theorems. -/
def demoSession : Session :=
  { sid := "a", host := "h", port := 22, username := "u", password := "",
    identityFile := "", createdAt := 0, terminal := some { process := some 7 } }

/-! ## Supporting lemmas -/

/-- A byte below 128 has the mask bit clear. -/
theorem and128_eq_zero : ∀ n < 128, n &&& 128 = 0 := by decide
/-- Masking a byte below 128 with 0x7f is the identity. -/
theorem and127_eq_self : ∀ n < 128, n &&& 127 = n := by decide

/-- Decoding step on an encoded frame with inline length. -/
theorem step_small (p : List Nat) (hp : p.length < 126) :
    parseFrameStep (129 :: p.length :: p) 0 = some (some p, p.length + 2) := by
  have h0 : (129 :: p.length :: p).getD 0 0 = 129 := rfl
  have h1 : (129 :: p.length :: p).getD 1 0 = p.length := rfl
  have hm : p.length &&& 128 = 0 := and128_eq_zero _ (by omega)
  have h7 : p.length &&& 127 = p.length := and127_eq_self _ (by omega)
  have hraw : bufferSlice (129 :: p.length :: p) 2 (2 + p.length) = p := by
    simp [bufferSlice]
  simp only [parseFrameStep, h0, h1, hm, h7, List.length_cons]
  rw [if_neg (by omega)]
  rw [frameLength, if_neg (by omega), if_neg (by omega)]
  simp only [frameBody]
  norm_num
  exact ⟨by omega, ⟨by decide, hraw⟩, by omega⟩

/-- Decoding step on an encoded frame with a 16-bit length extension. -/
theorem step_mid (p : List Nat) (hp1 : 126 ≤ p.length) (hp2 : p.length < 65536) :
    parseFrameStep (129 :: 126 :: (p.length / 256 % 256) :: (p.length % 256) :: p) 0 =
      some (some p, p.length + 4) := by
  set b1 := p.length / 256 % 256 with hb1
  set b0 := p.length % 256 with hb0
  have hlen : (129 :: 126 :: b1 :: b0 :: p).length = p.length + 4 := by simp
  have h0 : (129 :: 126 :: b1 :: b0 :: p).getD 0 0 = 129 := rfl
  have h1 : (129 :: 126 :: b1 :: b0 :: p).getD 1 0 = 126 := rfl
  have h2 : (129 :: 126 :: b1 :: b0 :: p).getD 2 0 = b1 := rfl
  have h3 : (129 :: 126 :: b1 :: b0 :: p).getD 3 0 = b0 := rfl
  have hr16 : readUInt16BE (129 :: 126 :: b1 :: b0 :: p) 2 = p.length := by
    simp only [readUInt16BE, h2, h3, hb1, hb0]; omega
  have hraw : bufferSlice (129 :: 126 :: b1 :: b0 :: p) 4 (4 + p.length) = p := by
    simp [bufferSlice]
  simp only [parseFrameStep, h0, h1, hlen]
  rw [if_neg (by omega)]
  rw [show (126 : Nat) &&& 127 = 126 by decide]
  rw [frameLength, if_pos rfl, if_neg (by omega), hr16]
  rw [show ((126 : Nat) &&& 128 == 128) = false by decide]
  simp only [frameBody]
  norm_num
  exact ⟨by omega, ⟨by decide, hraw⟩, by omega⟩

/-- Decoding step on an encoded frame with a 64-bit length extension. -/
theorem step_big (p : List Nat) (hp1 : 65536 ≤ p.length) (hp2 : p.length < 18446744073709551616) :
    parseFrameStep (129 :: 127 ::
        (p.length / 4294967296 / 16777216 % 256) :: (p.length / 4294967296 / 65536 % 256) ::
        (p.length / 4294967296 / 256 % 256) :: (p.length / 4294967296 % 256) ::
        (p.length / 16777216 % 256) :: (p.length / 65536 % 256) ::
        (p.length / 256 % 256) :: (p.length % 256) :: p) 0 =
      some (some p, p.length + 10) := by
  set n := p.length with hn
  set buf := 129 :: 127 ::
        (n / 4294967296 / 16777216 % 256) :: (n / 4294967296 / 65536 % 256) ::
        (n / 4294967296 / 256 % 256) :: (n / 4294967296 % 256) ::
        (n / 16777216 % 256) :: (n / 65536 % 256) ::
        (n / 256 % 256) :: (n % 256) :: p with hbuf
  have hlen : buf.length = n + 10 := by simp [hbuf, hn]
  have h0 : buf.getD 0 0 = 129 := rfl
  have h1 : buf.getD 1 0 = 127 := rfl
  have hhigh : readUInt32BE buf 2 = n / 4294967296 := by
    have e2 : buf.getD 2 0 = n / 4294967296 / 16777216 % 256 := rfl
    have e3 : buf.getD 3 0 = n / 4294967296 / 65536 % 256 := rfl
    have e4 : buf.getD 4 0 = n / 4294967296 / 256 % 256 := rfl
    have e5 : buf.getD 5 0 = n / 4294967296 % 256 := rfl
    simp only [readUInt32BE, e2, e3, e4, e5]
    omega
  have hlow : readUInt32BE buf 6 = n % 4294967296 := by
    have e6 : buf.getD 6 0 = n / 16777216 % 256 := rfl
    have e7 : buf.getD 7 0 = n / 65536 % 256 := rfl
    have e8 : buf.getD 8 0 = n / 256 % 256 := rfl
    have e9 : buf.getD 9 0 = n % 256 := rfl
    simp only [readUInt32BE, e6, e7, e8, e9]
    omega
  have hraw : bufferSlice buf 10 (10 + n) = p := by
    simp [hbuf, bufferSlice, hn]
  simp only [parseFrameStep, h0, h1, hlen]
  rw [if_neg (by omega)]
  rw [show (127 : Nat) &&& 127 = 127 by decide]
  rw [frameLength, if_neg (by omega), if_pos rfl, if_neg (by omega), hhigh, hlow]
  rw [show ((127 : Nat) &&& 128 == 128) = false by decide]
  have hlenval : n / 4294967296 * 4294967296 + n % 4294967296 = n := by omega
  rw [hlenval]
  simp only [frameBody]
  norm_num
  exact ⟨by omega, ⟨by decide, hraw⟩, by omega⟩

/-- Unfolding equation of the decode loop at positive fuel. -/
theorem parseLoop_succ (b : List Nat) (f o : Nat) :
    parseLoop b (f + 1) o =
      match parseFrameStep b o with
      | none => []
      | some (msgOpt, o') =>
        (match msgOpt with
         | some m => [m]
         | none => []) ++ parseLoop b f o' := rfl

/-- The decode loop stops when fewer than two bytes remain. -/
theorem parseLoop_stop (b : List Nat) (f o : Nat) (h : b.length < o + 2) :
    parseLoop b f o = [] := by
  cases f with
  | zero => rfl
  | succ f => rw [parseLoop_succ, parseFrameStep, if_pos h]

/-- Every resolved length class has a header of at least two bytes. -/
theorem frameLength_headerSize (b : List Nat) (o l0 len hs0 : Nat)
    (h : frameLength b o l0 = some (len, hs0)) : 2 ≤ hs0 := by
  unfold frameLength at h
  split_ifs at h <;> simp_all <;> omega

/-- A consumed frame moves the scan position past its pre-mask header. -/
theorem frameBody_offset (b : List Nat) (o opc : Nat) (m : Bool) (len hs0 : Nat)
    (msg : Option (List Nat)) (o' : Nat)
    (h : frameBody b o opc m len hs0 = some (msg, o')) :
    o + hs0 ≤ o' := by
  unfold frameBody at h
  split_ifs at h <;> simp_all <;> omega

/-- Every consumed frame advances the scan position by at least two bytes. -/
theorem parseFrameStep_advance (b : List Nat) (o : Nat) (msg : Option (List Nat))
    (o' : Nat) (h : parseFrameStep b o = some (msg, o')) : o + 2 ≤ o' := by
  unfold parseFrameStep at h
  by_cases hb : b.length < o + 2
  · rw [if_pos hb] at h; exact absurd h (by simp)
  · rw [if_neg hb] at h
    match hfl : frameLength b o (b.getD (o + 1) 0 &&& 127) with
    | none => rw [hfl] at h; exact absurd h (by simp)
    | some (len, hs0) =>
      rw [hfl] at h
      have h2 := frameLength_headerSize b o _ len hs0 hfl
      have h3 := frameBody_offset b o _ _ len hs0 msg o' h
      omega

/-- The decode loop is fuel-independent once the fuel covers the bytes
left to scan: it always terminates within `buffer.length + 1` iterations. -/
theorem parseLoop_congr (b : List Nat) :
    ∀ f1 f2 o, b.length + 1 ≤ f1 + o → b.length + 1 ≤ f2 + o →
      parseLoop b f1 o = parseLoop b f2 o := by
  intro f1
  induction f1 with
  | zero =>
    intro f2 o h1 h2
    rw [parseLoop, parseLoop_stop b f2 o (by omega)]
  | succ f ih =>
    intro f2 o h1 h2
    by_cases hb : b.length < o + 2
    · rw [parseLoop_stop b _ o hb, parseLoop_stop b f2 o hb]
    · obtain ⟨f2', rfl⟩ : ∃ f2', f2 = f2' + 1 := ⟨f2 - 1, by omega⟩
      rw [parseLoop_succ, parseLoop_succ]
      cases hstep : parseFrameStep b o with
      | none => rfl
      | some po =>
        obtain ⟨msgOpt, o'⟩ := po
        have hadv := parseFrameStep_advance b o msgOpt o' hstep
        simp only [ih f2' o' (by omega) (by omega)]

/-- Decoding an encoded text frame yields exactly the original payload, for
every payload length below 2^64. -/
theorem roundtrip (p : List Nat) (h : p.length < 18446744073709551616) :
    parseWebSocketFrames (sendWebSocket p) = [p] := by
  by_cases h1 : p.length < 126
  · have hbuf : sendWebSocket p = 129 :: p.length :: p := by
      simp [sendWebSocket, wsHeader, if_pos h1]
    rw [parseWebSocketFrames, hbuf]
    have hl : (129 :: p.length :: p).length = p.length + 2 := by simp
    rw [hl, parseLoop_succ, step_small p h1]
    dsimp only
    rw [parseLoop_stop _ _ _ (by simp only [List.length_cons]; omega)]
    simp
  · by_cases h2 : p.length < 65536
    · have hbuf : sendWebSocket p =
          129 :: 126 :: (p.length / 256 % 256) :: (p.length % 256) :: p := by
        simp [sendWebSocket, wsHeader, if_neg h1, if_pos h2, uint16BEBytes]
      rw [parseWebSocketFrames, hbuf]
      have hl : (129 :: 126 :: (p.length / 256 % 256) :: (p.length % 256) :: p).length
          = p.length + 4 := by simp
      rw [hl, parseLoop_succ, step_mid p (by omega) h2]
      dsimp only
      rw [parseLoop_stop _ _ _ (by simp only [List.length_cons]; omega)]
      simp
    · have hbuf : sendWebSocket p = 129 :: 127 ::
          (p.length / 4294967296 / 16777216 % 256) :: (p.length / 4294967296 / 65536 % 256) ::
          (p.length / 4294967296 / 256 % 256) :: (p.length / 4294967296 % 256) ::
          (p.length / 16777216 % 256) :: (p.length / 65536 % 256) ::
          (p.length / 256 % 256) :: (p.length % 256) :: p := by
        simp [sendWebSocket, wsHeader, if_neg h1, if_neg h2, uint32BEBytes]
      rw [parseWebSocketFrames, hbuf]
      have hl : (129 :: 127 ::
          (p.length / 4294967296 / 16777216 % 256) :: (p.length / 4294967296 / 65536 % 256) ::
          (p.length / 4294967296 / 256 % 256) :: (p.length / 4294967296 % 256) ::
          (p.length / 16777216 % 256) :: (p.length / 65536 % 256) ::
          (p.length / 256 % 256) :: (p.length % 256) :: p).length = p.length + 10 := by simp
      rw [hl, parseLoop_succ, step_big p (by omega) h]
      dsimp only
      rw [parseLoop_stop _ _ _ (by simp only [List.length_cons]; omega)]
      simp

/-- Setting bit 0x80 on a byte below 128 makes the mask flag read true. -/
theorem add128_and128 : ∀ n < 128, (128 + n) &&& 128 = 128 := by decide

/-- The low seven bits of 0x80 plus a byte below 128 are that byte. -/
theorem add128_and127 : ∀ n < 128, (128 + n) &&& 127 = n := by decide

/-- Unmasking preserves the payload length. -/
theorem unmaskPayload_length (mask : List Nat) :
    ∀ i p, (unmaskPayload mask i p).length = p.length := by
  intro i p
  induction p generalizing i with
  | nil => rfl
  | cons b rest ih => simp [unmaskPayload, ih]

/-- The XOR unmasking rule is an involution at every starting index. -/
theorem unmaskPayload_involution (mask : List Nat) :
    ∀ i p, unmaskPayload mask i (unmaskPayload mask i p) = p := by
  intro i p
  induction p generalizing i with
  | nil => rfl
  | cons b rest ih =>
    simp only [unmaskPayload, ih]
    congr 1
    exact Nat.xor_cancel_right _ _

/-- Decoding step on a masked frame with inline length. -/
theorem step_masked_small (mask p : List Nat) (hm : mask.length = 4) (hp : p.length < 126) :
    parseFrameStep (129 :: (128 + p.length) :: (mask ++ unmaskPayload mask 0 p)) 0 =
      some (some p, p.length + 6) := by
  set um := unmaskPayload mask 0 p with hum
  have hulen : um.length = p.length := unmaskPayload_length mask 0 p
  set buf := 129 :: (128 + p.length) :: (mask ++ um) with hbuf
  have hlen : buf.length = p.length + 6 := by simp [hbuf, hm, hulen]; omega
  have h0 : buf.getD 0 0 = 129 := rfl
  have h1 : buf.getD 1 0 = 128 + p.length := rfl
  have hmb : (128 + p.length) &&& 128 = 128 := add128_and128 _ (by omega)
  have h7 : (128 + p.length) &&& 127 = p.length := add128_and127 _ (by omega)
  have hmask : bufferSlice buf 2 6 = mask := by
    simp [hbuf, bufferSlice, List.take_left', hm]
  have hraw : bufferSlice buf 6 (6 + p.length) = um := by
    have : (mask ++ um).drop 4 = um := by
      rw [show (4 : Nat) = mask.length from hm.symm, List.drop_left]
    simp [hbuf, bufferSlice, List.drop_drop, this, hulen]
  simp only [parseFrameStep, h0, h1, hmb, h7, hlen]
  rw [if_neg (by omega)]
  rw [frameLength, if_neg (by omega), if_neg (by omega)]
  simp only [frameBody]
  norm_num
  exact ⟨by omega, ⟨by decide, by rw [hmask, hraw, hum, unmaskPayload_involution]⟩, by omega⟩

/-- Decoding step on a masked frame with a 16-bit length extension. -/
theorem step_masked_mid (mask p : List Nat) (hm : mask.length = 4)
    (hp1 : 126 ≤ p.length) (hp2 : p.length < 65536) :
    parseFrameStep (129 :: 254 :: (p.length / 256 % 256) :: (p.length % 256) ::
        (mask ++ unmaskPayload mask 0 p)) 0 =
      some (some p, p.length + 8) := by
  set um := unmaskPayload mask 0 p with hum
  have hulen : um.length = p.length := unmaskPayload_length mask 0 p
  set b1 := p.length / 256 % 256 with hb1
  set b0 := p.length % 256 with hb0
  set buf := 129 :: 254 :: b1 :: b0 :: (mask ++ um) with hbuf
  have hlen : buf.length = p.length + 8 := by simp [hbuf, hm, hulen]; omega
  have h0 : buf.getD 0 0 = 129 := rfl
  have h1 : buf.getD 1 0 = 254 := rfl
  have h2 : buf.getD 2 0 = b1 := rfl
  have h3 : buf.getD 3 0 = b0 := rfl
  have hr16 : readUInt16BE buf 2 = p.length := by
    simp only [readUInt16BE, h2, h3, hb1, hb0]; omega
  have hmask : bufferSlice buf 4 8 = mask := by
    simp [hbuf, bufferSlice, List.take_left', hm]
  have hraw : bufferSlice buf 8 (8 + p.length) = um := by
    have hd : (mask ++ um).drop 4 = um := by
      rw [show (4 : Nat) = mask.length from hm.symm, List.drop_left]
    simp [hbuf, bufferSlice, List.drop_drop, hd, hulen]
  simp only [parseFrameStep, h0, h1, hlen]
  rw [if_neg (by omega)]
  rw [show (254 : Nat) &&& 127 = 126 by decide, show (254 : Nat) &&& 128 = 128 by decide]
  rw [frameLength, if_pos rfl, if_neg (by omega), hr16]
  simp only [frameBody]
  norm_num
  exact ⟨by omega, ⟨by decide, by rw [hmask, hraw, hum, unmaskPayload_involution]⟩, by omega⟩

/-- Decoding step on a masked frame with a 64-bit length extension. -/
theorem step_masked_big (mask p : List Nat) (hm : mask.length = 4)
    (hp1 : 65536 ≤ p.length) (hp2 : p.length < 18446744073709551616) :
    parseFrameStep (129 :: 255 ::
        (p.length / 4294967296 / 16777216 % 256) :: (p.length / 4294967296 / 65536 % 256) ::
        (p.length / 4294967296 / 256 % 256) :: (p.length / 4294967296 % 256) ::
        (p.length / 16777216 % 256) :: (p.length / 65536 % 256) ::
        (p.length / 256 % 256) :: (p.length % 256) ::
        (mask ++ unmaskPayload mask 0 p)) 0 =
      some (some p, p.length + 14) := by
  set um := unmaskPayload mask 0 p with hum
  have hulen : um.length = p.length := unmaskPayload_length mask 0 p
  set n := p.length with hn
  set buf := 129 :: 255 ::
        (n / 4294967296 / 16777216 % 256) :: (n / 4294967296 / 65536 % 256) ::
        (n / 4294967296 / 256 % 256) :: (n / 4294967296 % 256) ::
        (n / 16777216 % 256) :: (n / 65536 % 256) ::
        (n / 256 % 256) :: (n % 256) :: (mask ++ um) with hbuf
  have hlen : buf.length = n + 14 := by simp [hbuf, hm, hulen, hn]; omega
  have h0 : buf.getD 0 0 = 129 := rfl
  have h1 : buf.getD 1 0 = 255 := rfl
  have hhigh : readUInt32BE buf 2 = n / 4294967296 := by
    have e2 : buf.getD 2 0 = n / 4294967296 / 16777216 % 256 := rfl
    have e3 : buf.getD 3 0 = n / 4294967296 / 65536 % 256 := rfl
    have e4 : buf.getD 4 0 = n / 4294967296 / 256 % 256 := rfl
    have e5 : buf.getD 5 0 = n / 4294967296 % 256 := rfl
    simp only [readUInt32BE, e2, e3, e4, e5]
    omega
  have hlow : readUInt32BE buf 6 = n % 4294967296 := by
    have e6 : buf.getD 6 0 = n / 16777216 % 256 := rfl
    have e7 : buf.getD 7 0 = n / 65536 % 256 := rfl
    have e8 : buf.getD 8 0 = n / 256 % 256 := rfl
    have e9 : buf.getD 9 0 = n % 256 := rfl
    simp only [readUInt32BE, e6, e7, e8, e9]
    omega
  have hmask : bufferSlice buf 10 14 = mask := by
    simp [hbuf, bufferSlice, List.take_left', hm]
  have hraw : bufferSlice buf 14 (14 + n) = um := by
    have hd : (mask ++ um).drop 4 = um := by
      rw [show (4 : Nat) = mask.length from hm.symm, List.drop_left]
    simp [hbuf, bufferSlice, List.drop_drop, hd, hulen, hn]
  simp only [parseFrameStep, h0, h1, hlen]
  rw [if_neg (by omega)]
  rw [show (255 : Nat) &&& 127 = 127 by decide, show (255 : Nat) &&& 128 = 128 by decide]
  rw [frameLength, if_neg (by omega), if_pos rfl, if_neg (by omega), hhigh, hlow]
  rw [show n / 4294967296 * 4294967296 + n % 4294967296 = n from by omega]
  simp only [frameBody]
  norm_num
  exact ⟨by omega, ⟨by decide, by rw [hmask, hraw, hum, unmaskPayload_involution]⟩, by omega⟩

/-- Decoding a well-formed masked text frame yields the original payload. -/
theorem masked_roundtrip (mask p : List Nat) (hm : mask.length = 4)
    (h : p.length < 18446744073709551616) :
    parseWebSocketFrames (maskedTextFrame mask p) = [p] := by
  by_cases h1 : p.length < 126
  · have hbuf : maskedTextFrame mask p =
        129 :: (128 + p.length) :: (mask ++ unmaskPayload mask 0 p) := by
      simp [maskedTextFrame, maskedHeader, if_pos h1]
    rw [parseWebSocketFrames, hbuf]
    have hl : (129 :: (128 + p.length) :: (mask ++ unmaskPayload mask 0 p)).length
        = p.length + 6 := by
      simp [hm, unmaskPayload_length]; omega
    rw [hl, parseLoop_succ, step_masked_small mask p hm h1]
    dsimp only
    rw [parseLoop_stop _ _ _ (by rw [hl]; omega)]
    simp
  · by_cases h2 : p.length < 65536
    · have hbuf : maskedTextFrame mask p = 129 :: 254 ::
          (p.length / 256 % 256) :: (p.length % 256) ::
          (mask ++ unmaskPayload mask 0 p) := by
        simp [maskedTextFrame, maskedHeader, if_neg h1, if_pos h2, uint16BEBytes]
      rw [parseWebSocketFrames, hbuf]
      have hl : (129 :: 254 :: (p.length / 256 % 256) :: (p.length % 256) ::
          (mask ++ unmaskPayload mask 0 p)).length = p.length + 8 := by
        simp [hm, unmaskPayload_length]; omega
      rw [hl, parseLoop_succ, step_masked_mid mask p hm (by omega) h2]
      dsimp only
      rw [parseLoop_stop _ _ _ (by rw [hl]; omega)]
      simp
    · have hbuf : maskedTextFrame mask p = 129 :: 255 ::
          (p.length / 4294967296 / 16777216 % 256) :: (p.length / 4294967296 / 65536 % 256) ::
          (p.length / 4294967296 / 256 % 256) :: (p.length / 4294967296 % 256) ::
          (p.length / 16777216 % 256) :: (p.length / 65536 % 256) ::
          (p.length / 256 % 256) :: (p.length % 256) ::
          (mask ++ unmaskPayload mask 0 p) := by
        simp [maskedTextFrame, maskedHeader, if_neg h1, if_neg h2, uint32BEBytes]
      rw [parseWebSocketFrames, hbuf]
      have hl : (129 :: 255 ::
          (p.length / 4294967296 / 16777216 % 256) :: (p.length / 4294967296 / 65536 % 256) ::
          (p.length / 4294967296 / 256 % 256) :: (p.length / 4294967296 % 256) ::
          (p.length / 16777216 % 256) :: (p.length / 65536 % 256) ::
          (p.length / 256 % 256) :: (p.length % 256) ::
          (mask ++ unmaskPayload mask 0 p)).length = p.length + 14 := by
        simp [hm, unmaskPayload_length]; omega
      rw [hl, parseLoop_succ, step_masked_big mask p hm (by omega) h]
      dsimp only
      rw [parseLoop_stop _ _ _ (by rw [hl]; omega)]
      simp

/-- The joined handshake response is the four lines separated by CRLF and
terminated by a blank line. -/
theorem upgradeResponseText_eq (a : String) :
    upgradeResponseText a =
      "HTTP/1.1 101 Switching Protocols\r\nUpgrade: websocket\r\nConnection: Upgrade\r\nSec-WebSocket-Accept: "
        ++ a ++ "\r\n\r\n" := by
  simp only [upgradeResponseText, String.intercalate, String.intercalate.go,
    String.append_assoc]
  rw [← String.append_assoc]
  rfl

/-- A deleted id can no longer be found in the registry. -/
theorem registryGet_delete (r : Registry) (id : String) :
    registryGet (registryDelete r id) id = none := by
  induction r with
  | nil => rfl
  | cons e rest ih =>
    by_cases hk : (e.1 == id) = true
    · have hb : (e.1 != id) = false := by simp [bne, hk]
      simp only [registryDelete, List.filter_cons, hb, Bool.false_eq_true, if_false]
      exact ih
    · have hb : (e.1 != id) = true := by simp only [bne, hk, Bool.not_false]
      simp only [registryDelete, List.filter_cons, hb, if_true]
      simp only [registryGet, List.find?_cons, hk]
      exact ih

/-! ## The claims -/

/-- C2: for every payload whose length is one of 0, 1, 125, 126, 65535,
65536 or 2000000, decoding the bytes produced by encoding it as a text
frame yields exactly one message, equal to the original payload. -/
theorem claim2_roundtrip (p : List Nat)
    (h : p.length ∈ [0, 1, 125, 126, 65535, 65536, 2000000]) :
    parseWebSocketFrames (sendWebSocket p) = [p] := by
  apply roundtrip
  simp only [List.mem_cons, List.not_mem_nil, or_false] at h
  omega

/-- Witness for C2 at the one-byte payload `[97]`. -/
theorem claim2_roundtrip_witness :
    ([97] : List Nat).length ∈ [0, 1, 125, 126, 65535, 65536, 2000000] ∧
    parseWebSocketFrames (sendWebSocket [97]) = [[97]] :=
  ⟨by decide, claim2_roundtrip [97] (by decide)⟩

/-- C3: for every stderr chunk containing `password` case-insensitively,
a non-empty stored credential produces exactly one stdin write of the
credential plus a newline and no socket forward, while an empty credential
forwards the chunk unchanged and writes nothing to stdin. -/
theorem claim3_credential_heuristic (password chunk : String)
    (h : containsPassword chunk = true) :
    (password ≠ "" →
      handleStderrChunk password chunk =
        { stdinWrites := [password ++ "\n"], socketWrites := [] }) ∧
    (password = "" →
      handleStderrChunk password chunk =
        { stdinWrites := [], socketWrites := [chunk] }) := by
  constructor <;> intro hp <;> simp [handleStderrChunk, hp, h]

/-- Witness for C3 on the chunk `Password:` with credential `secret`. -/
theorem claim3_credential_heuristic_witness :
    containsPassword "Password:" = true ∧ ("secret" : String) ≠ "" ∧
    handleStderrChunk "secret" "Password:" =
      { stdinWrites := ["secret" ++ "\n"], socketWrites := [] } :=
  ⟨by decide, by decide,
    (claim3_credential_heuristic "secret" "Password:" (by decide)).1 (by decide)⟩

/-- C4: after `removeSession id` a lookup of `id` reports not-found;
removing an unknown id is a no-op with no action; and when the session has
an attached bridge with a live process, the trace is exactly a SIGKILL to
that process followed by the discarding of the entry, in that order. -/
theorem claim4_remove_session (r : Registry) (id : String) :
    registryGet (removeSession r id).1 id = none ∧
    (registryGet r id = none → removeSession r id = (r, [])) ∧
    (∀ s t pid, registryGet r id = some s → s.terminal = some t →
      t.process = some pid →
      (removeSession r id).2 = [RegEvent.kill pid "SIGKILL", RegEvent.discard id]) := by
  refine ⟨?_, ?_, ?_⟩
  · cases hget : registryGet r id with
    | none => simp [removeSession, hget]
    | some s => simp [removeSession, hget, registryGet_delete]
  · intro h; simp [removeSession, h]
  · intro s t pid hs ht hp
    simp [removeSession, hs, ht, hp]

/-- Witness for C4 on a one-entry registry whose session has pid 7. -/
theorem claim4_remove_session_witness :
    registryGet [("a", demoSession)] "a" = some demoSession ∧
    demoSession.terminal = some { process := some 7 } ∧
    (removeSession [("a", demoSession)] "a").2 =
      [RegEvent.kill 7 "SIGKILL", RegEvent.discard "a"] :=
  ⟨rfl, rfl,
    (claim4_remove_session [("a", demoSession)] "a").2.2 demoSession
      { process := some 7 } 7 rfl rfl rfl⟩

/-- C5: on the terminal path, an absent handshake key destroys the
connection with no response written, and a present (non-empty: the code
treats an empty header value like an absent one) key produces exactly one
write of the 101 status line plus the Upgrade, Connection and
Sec-WebSocket-Accept headers — the accept token being the base64 SHA-1 of
the key concatenated with the magic GUID — before frame traffic starts. -/
theorem claim5_upgrade_handshake (sha1Base64 : String → String) (key : String)
    (hk : key ≠ "") :
    onUpgrade sha1Base64 { pathname := "/terminal", secWebSocketKey := none } =
      [SocketAction.destroy] ∧
    onUpgrade sha1Base64 { pathname := "/terminal", secWebSocketKey := some key } =
      [SocketAction.write
        ("HTTP/1.1 101 Switching Protocols\r\nUpgrade: websocket\r\nConnection: Upgrade\r\nSec-WebSocket-Accept: "
          ++ sha1Base64 (key ++ magicGUID) ++ "\r\n\r\n"),
       SocketAction.installDataHandler] := by
  constructor
  · simp [onUpgrade]
  · simp [onUpgrade, hk, websocketAcceptKey, upgradeResponseText_eq]

/-- Witness for C5 with a constant digest function and key `clientkey`. -/
theorem claim5_upgrade_handshake_witness :
    ("clientkey" : String) ≠ "" ∧
    onUpgrade (fun _ => "TOKEN") { pathname := "/terminal", secWebSocketKey := some "clientkey" } =
      [SocketAction.write
        ("HTTP/1.1 101 Switching Protocols\r\nUpgrade: websocket\r\nConnection: Upgrade\r\nSec-WebSocket-Accept: "
          ++ "TOKEN" ++ "\r\n\r\n"),
       SocketAction.installDataHandler] :=
  ⟨by decide, (claim5_upgrade_handshake (fun _ => "TOKEN") "clientkey" (by decide)).2⟩

/-- C6: the encoder emits a 2-byte header for payload lengths up to 125, a
4-byte header up to 65535 and a 10-byte header beyond; the first byte of
every encoded frame has the FIN bit set and the second never has the mask
bit set. -/
theorem claim6_encode_header (p : List Nat) :
    (p.length ≤ 125 → (wsHeader p.length).length = 2) ∧
    (126 ≤ p.length → p.length ≤ 65535 → (wsHeader p.length).length = 4) ∧
    (65536 ≤ p.length → (wsHeader p.length).length = 10) ∧
    (sendWebSocket p).getD 0 0 &&& 128 = 128 ∧
    (sendWebSocket p).getD 1 0 &&& 128 = 0 := by
  refine ⟨?_, ?_, ?_, ?_, ?_⟩
  · intro h; simp [wsHeader, if_pos (show p.length < 126 by omega)]
  · intro h1 h2
    simp [wsHeader, if_neg (show ¬ p.length < 126 by omega),
      if_pos (show p.length < 65536 by omega), uint16BEBytes]
  · intro h
    simp [wsHeader, if_neg (show ¬ p.length < 126 by omega),
      if_neg (show ¬ p.length < 65536 by omega), uint32BEBytes]
  · by_cases h1 : p.length < 126
    · simp [sendWebSocket, wsHeader, if_pos h1]
      decide
    · by_cases h2 : p.length < 65536 <;>
        simp [sendWebSocket, wsHeader, if_neg h1, h2, uint16BEBytes, uint32BEBytes] <;>
        decide
  · by_cases h1 : p.length < 126
    · have hb : (sendWebSocket p).getD 1 0 = p.length := by
        simp [sendWebSocket, wsHeader, if_pos h1]
      rw [hb]; exact and128_eq_zero _ (by omega)
    · by_cases h2 : p.length < 65536
      · have hb : (sendWebSocket p).getD 1 0 = 126 := by
          simp [sendWebSocket, wsHeader, if_neg h1, if_pos h2, uint16BEBytes]
        rw [hb]; decide
      · have hb : (sendWebSocket p).getD 1 0 = 127 := by
          simp [sendWebSocket, wsHeader, if_neg h1, if_neg h2, uint32BEBytes]
        rw [hb]; decide

set_option maxRecDepth 4096 in
/-- Witness for C6 at a 200-byte payload (4-byte header class). -/
theorem claim6_encode_header_witness :
    (126 ≤ (List.replicate 200 (0 : Nat)).length) ∧
    ((List.replicate 200 (0 : Nat)).length ≤ 65535) ∧
    (wsHeader (List.replicate 200 (0 : Nat)).length).length = 4 :=
  ⟨by simp, by simp,
    (claim6_encode_header (List.replicate 200 0)).2.1 (by simp) (by simp)⟩

/-- C8: XOR-unmasking a masked copy of any payload under any 4-byte mask
key reproduces the payload, and decoding a well-formed masked text frame
built from the payload yields exactly the original payload. -/
theorem claim8_masking_involution (mask p : List Nat) (hm : mask.length = 4)
    (hp : p.length < 18446744073709551616) :
    unmaskPayload mask 0 (unmaskPayload mask 0 p) = p ∧
    parseWebSocketFrames (maskedTextFrame mask p) = [p] :=
  ⟨unmaskPayload_involution mask 0 p, masked_roundtrip mask p hm hp⟩

/-- Witness for C8 at payload `[97, 98, 99]` and mask `[1, 2, 3, 4]`. -/
theorem claim8_masking_involution_witness :
    ([1, 2, 3, 4] : List Nat).length = 4 ∧
    ([97, 98, 99] : List Nat).length < 18446744073709551616 ∧
    unmaskPayload [1, 2, 3, 4] 0 (unmaskPayload [1, 2, 3, 4] 0 [97, 98, 99]) = [97, 98, 99] ∧
    parseWebSocketFrames (maskedTextFrame [1, 2, 3, 4] [97, 98, 99]) = [[97, 98, 99]] :=
  ⟨rfl, by decide,
    (claim8_masking_involution [1, 2, 3, 4] [97, 98, 99] rfl (by decide)).1,
    (claim8_masking_involution [1, 2, 3, 4] [97, 98, 99] rfl (by decide)).2⟩

/-- C9: attaching with a session id that does not resolve writes exactly
one plain-text notice frame, then ends the socket; the registry is
unchanged (no bridge recorded) and the trace holds no spawn action. -/
theorem claim9_attach_unknown_session (r : Registry) (pid : Nat) (id : String)
    (h : registryGet r id = none) :
    attachTerminal r pid id =
      (r, [BridgeEvent.socketWrite (sendWebSocket invalidSessionBytes),
           BridgeEvent.socketEnd]) := by
  simp [attachTerminal, h]

/-- Witness for C9 on the empty registry. -/
theorem claim9_attach_unknown_session_witness :
    registryGet [] "nosuch" = none ∧
    attachTerminal [] 0 "nosuch" =
      ([], [BridgeEvent.socketWrite (sendWebSocket invalidSessionBytes),
            BridgeEvent.socketEnd]) :=
  ⟨rfl, claim9_attach_unknown_session [] 0 "nosuch" rfl⟩

/-- C10: the decoder is total — the loop, run with any fuel of at least
`buffer.length + 1`, returns the same (possibly empty) message list as
`parseWebSocketFrames`, because every consumed frame advances the scan
offset by at least two bytes and every multi-byte read is bounds-checked
(a failed bounds check stops the loop rather than erroring). -/
theorem claim10_decoder_total (buffer : List Nat) (fuel : Nat)
    (h : buffer.length + 1 ≤ fuel) :
    parseLoop buffer fuel 0 = parseWebSocketFrames buffer ∧
    (∀ offset msg offset', parseFrameStep buffer offset = some (msg, offset') →
      offset + 2 ≤ offset') := by
  constructor
  · exact parseLoop_congr buffer fuel (buffer.length + 1) 0 (by omega) (by omega)
  · intro o m o' hstep
    exact parseFrameStep_advance buffer o m o' hstep

/-- Witness for C10 on the buffer `[129, 1, 97]` with fuel 9. -/
theorem claim10_decoder_total_witness :
    ([129, 1, 97] : List Nat).length + 1 ≤ 9 ∧
    parseLoop [129, 1, 97] 9 0 = parseWebSocketFrames [129, 1, 97] :=
  ⟨by decide, (claim10_decoder_total [129, 1, 97] 9 (by decide)).1⟩

/-- C1 (refuted on the code): the claim says the decoder retains the
unconsumed tail of a truncated trailing frame so that the second message
is produced once the remaining bytes arrive.  The decoder is stateless and
the data handler decodes each chunk in isolation, so the tail is dropped:
a chunk holding the complete frame for `a` plus the first header byte of a
second frame yields `[a]`, and the remaining bytes of the second frame,
supplied on the next call, decode to nothing — the second message is never
produced. -/
theorem claim1_truncated_tail_dropped :
    parseWebSocketFrames [129, 1, 97, 129] = [[97]] ∧
    parseWebSocketFrames [1, 98] = [] ∧
    terminalStdinWrites [[129, 1, 97, 129], [1, 98]] = [[97]] ∧
    terminalStdinWrites [[129, 1, 97, 129], [1, 98]] ≠ [[97], [98]] := by
  decide

/-- C7 (refuted on the code): the claim says an inbound text frame whose
mask flag is clear is rejected.  The decoder never requires the mask flag:
this unmasked text frame is surfaced as the decoded message `abc`. -/
theorem claim7_unmasked_inbound_accepted :
    parseWebSocketFrames [129, 3, 97, 98, 99] = [[97, 98, 99]] := by
  decide

end TerminalEmulator
